import Mathlib

/-!
# PyWallet core (`pywalib`) — verification of the specified behaviour

The repository ships the Kivy UI (`main.py`) and the unit tests
(`src/tests/test_pywalib.py`); the `pywalib` module they exercise is not part
of the source tree.  The definitions below are therefore modelled from the
specification's description of the wallet core (data model, keystore
manager, chain-data client, transaction builder and error classifiers) and
the behaviour is settled against those models.
-/

namespace PyWalib

/-- Modelled from the spec: transaction-record field values.  Raw fields of a
`TransactionRecord` arrive from the chain-data service as strings; the derived
`extra` dictionary holds the Wei→Ether conversion (kept exact as a rational),
and the `sent` / `received` booleans computed relative to a queried address. -/
inductive TxVal where
  | raw (s : String)
  | extraD (value_eth : ℚ) (sent : Bool) (received : Bool)
deriving DecidableEq

/-- Modelled from the spec: a transaction record is a dictionary of named
fields, represented as an association list keeping the source order. -/
abbrev TxRecord := List (String × TxVal)

/-- Decimal-string parsing, as Python's `int()` on a digit string does. -/
def parseNatStr (s : String) : Nat :=
  s.data.foldl (fun acc c => acc * 10 + (c.toNat - 48)) 0

/-- Raw string value of a field; records coming from the chain-data service
carry every field as a string (§6). -/
def lookupStr (t : TxRecord) (k : String) : String :=
  match t.lookup k with
  | some (.raw s) => s
  | _ => ""

/-- Modelled from the spec: the derived `extra` dictionary of §3, computed
relative to the queried address: `value_eth` is the Wei value converted to
Ether (1 Ether = 10^18 Wei), `sent` means `from == queried address`,
`received` means `to == queried address`. -/
def mkExtra (address : String) (t : TxRecord) : TxVal :=
  .extraD ((parseNatStr (lookupStr t "value") : ℚ) / 10 ^ 18)
    (lookupStr t "from" == address)
    (lookupStr t "to" == address)

/-- Modelled from the spec: `get_transaction_history` of the missing
`pywalib` module; takes the queried address and the transaction list the
service returned, and augments every record with the derived `extra_dict`
field, preserving the source order. -/
def get_transaction_history (address : String) (result : List TxRecord) :
    List TxRecord :=
  result.map (fun t => t ++ [("extra_dict", mkExtra address t)])

/-- Modelled from the spec: `get_out_transaction_history` filters the full
history to the entries whose `from` field equals the queried address. -/
def get_out_transaction_history (address : String) (result : List TxRecord) :
    List TxRecord :=
  (get_transaction_history address result).filter
    (fun t => lookupStr t "from" == address)

/-- Integer value of a record's `nonce` field. -/
def txNonce (t : TxRecord) : Nat := parseNatStr (lookupStr t "nonce")

/-- Modelled from the spec: `get_nonce` of the missing `pywalib` module;
takes the maximum nonce among the outbound transactions of the address and
returns it plus one, and returns `0` when there is no outbound transaction
(the service's empty / "no transactions found" answer is the empty list). -/
def get_nonce (address : String) (result : List TxRecord) : Nat :=
  match get_out_transaction_history address result with
  | [] => 0
  | t :: ts => ((t :: ts).map txNonce).foldl max 0 + 1

/-! ## Error classifiers (§4.5, §7) -/

/-- Modelled from the spec: the shape of a chain-data service response,
`{status, message, result}`; the `result` payload is a balance string or a
transaction list depending on the query, so it is kept generic. -/
structure EtherscanResponse (ρ : Type) where
  status : String
  message : String
  result : ρ
deriving DecidableEq

/-- Modelled from the spec: the typed errors the service-error classifier can
produce; `unknown` carries the original response payload for diagnostics. -/
inductive EtherscanErr (ρ : Type) where
  | noTransactionFound
  | unknown (response : EtherscanResponse ρ)
deriving DecidableEq

/-- Modelled from the spec: `handle_etherscan_error` of the missing `pywalib`
module (the spec's `classify_service_error`): `status == "1"` means no error;
otherwise `message == "No transactions found"` classifies as
`NoTransactionFoundException` and anything else as an unknown-service error
carrying the raw response. -/
def handle_etherscan_error (r : EtherscanResponse ρ) :
    Except (EtherscanErr ρ) Unit :=
  if r.status = "1" then .ok ()
  else if r.message = "No transactions found" then .error .noTransactionFound
  else .error (.unknown r)

/-- Modelled from the spec: the raw error payload the node hands back, a
code/message pair where the code may be absent. -/
structure Web3Error where
  code : Option Int
  message : String
deriving DecidableEq

/-- Modelled from the spec: the typed errors of the node-error classifier;
both constructors carry the raw error payload. -/
inductive Web3Err where
  | insufficientFunds (raw : Web3Error)
  | unknown (raw : Web3Error)
deriving DecidableEq

/-- Substring test, as Python's `in` operator on strings. -/
def containsStr (s pat : String) : Bool :=
  s.data.tails.any (fun t => pat.data.isPrefixOf t)

/-- Modelled from the spec: `handle_web3_exception` of the missing `pywalib`
module (the spec's `classify_node_error`): a message containing
"insufficient funds" classifies as `InsufficientFundsException`, any other
code/message pair — a missing code included — as an unknown-service error,
always carrying the raw payload and never crashing. -/
def handle_web3_exception (e : Web3Error) : Web3Err :=
  if containsStr e.message "insufficient funds" then .insufficientFunds e
  else .unknown e

/-! ## Keystore accounts (§3, §4.1) -/

/-- Modelled from the spec: an in-memory wallet account: its address, the
private key material, the keyfile name on disk, the lock state and the
password its key material is currently encrypted with (standing in for the
external KDF/encryption primitive, a declared non-goal of the core). -/
structure Account where
  address : String
  privkey : String
  path : String
  locked : Bool
  password : String
deriving DecidableEq

/-- Modelled from the spec: the typed error taxonomy of §7 used by the
keystore manager and the transaction builder. -/
inductive PWErr where
  | invalidParameter
  | authenticationError
  | noAccount
  | accountLocked
deriving DecidableEq

/-- Modelled from the spec: `lock` purges the plaintext key; always succeeds. -/
def lock (a : Account) : Account := { a with locked := true }

/-- Modelled from the spec: `unlock` decrypts the key material given the
password; a wrong password fails with `AuthenticationError` leaving the lock
state unchanged; idempotent when already unlocked. -/
def unlock (a : Account) (pw : String) : Account × Option PWErr :=
  if a.locked then
    if pw = a.password then ({ a with locked := false }, none)
    else (a, some .authenticationError)
  else (a, none)

/-- Modelled from the spec: `new_account` (the spec's `create`) validates
`security_ratio` against [1,100] — failing with `InvalidParameter` and no
partial effect when it is supplied outside that range — and otherwise appends
a freshly generated account, encrypted under `password` and starting
unlocked.  Key generation itself is external, so the fresh key material is a
parameter. -/
def new_account (st : List Account) (fresh : Account) (password : String)
    (security_ratio : Option Int) : List Account × Except PWErr Account :=
  match security_ratio with
  | some r =>
    if 1 ≤ r ∧ r ≤ 100 then
      let acct := { fresh with password := password, locked := false }
      (st ++ [acct], .ok acct)
    else (st, .error .invalidParameter)
  | none =>
    let acct := { fresh with password := password, locked := false }
    (st ++ [acct], .ok acct)

/-- Modelled from the spec: `update_account_password` (the spec's
`update_password`): on a locked account the current password is mandatory and
must authenticate, else the call fails with `AuthenticationError` and the
account is unchanged; on an unlocked account it is optional; success
re-encrypts under the new password and leaves the account unlocked. -/
def update_account_password (a : Account) (newPw : String)
    (current : Option String) : Account × Option PWErr :=
  if a.locked then
    match current with
    | none => (a, some .authenticationError)
    | some pw =>
      if pw = a.password then
        ({ a with password := newPw, locked := false }, none)
      else (a, some .authenticationError)
  else ({ a with password := newPw, locked := false }, none)

/-! ## Keystore directory and delete (§3, §4.1) -/

/-- Modelled from the spec: one encrypted keyfile on disk, named
deterministically and carrying the account's address. -/
structure KeyFile where
  name : String
  address : String
deriving DecidableEq

/-- Modelled from the spec: the filesystem state a keystore manager owns: the
active keystore directory and its sibling trash directory, each an
ordered-by-discovery list of keyfiles. -/
structure KeystoreFS where
  active : List KeyFile
  trash : List KeyFile
deriving DecidableEq

/-- Modelled from the spec: the account list is the ordered enumeration of
the directory's keyfiles; re-constructing a manager on the same directory
re-reads the same files, so listing is a pure function of the directory. -/
def get_account_list (dir : List KeyFile) : List KeyFile := dir

/-- Modelled from the spec: moving a file into a directory overwrites a
pre-existing file of the same name instead of raising. -/
def moveOverwrite (dir : List KeyFile) (f : KeyFile) : List KeyFile :=
  dir.filter (fun g => g.name ≠ f.name) ++ [f]

/-- Modelled from the spec: `delete_account` moves the account's keyfile from
the active directory into the trash directory, reconciling a name collision
there by overwriting; the account disappears from subsequent listings. -/
def delete_account (fs : KeystoreFS) (f : KeyFile) : KeystoreFS :=
  { active := fs.active.filter (fun g => g.name ≠ f.name)
    trash := moveOverwrite fs.trash f }

/-! ## Transaction builder (§4.4) -/

/-- Modelled from the spec: the assembled transaction fields handed to the
signing primitive. -/
structure SignParams where
  chainId : Nat
  gas : Nat
  gasPrice : Nat
  nonce : Nat
  toAddr : String
  value : Nat
deriving DecidableEq

/-- Modelled from the spec: `transact` (the spec's `build_and_send`) with the
specified defaults `gas = 25000`, `gas_price = 4_000_000_000`,
`chain_id = 1`.  The sender, when omitted, defaults to the main account — the
first of the account list — and the call fails with `NoAccountError` when no
account matches; the nonce is resolved for the sender from its outbound
history; the sender's account is required to be unlocked — its plaintext key
is only resident then — and the assembled fields are signed with its private
key (returned here as the pair handed to the signing primitive). -/
def transact (accounts : List Account) (history : List TxRecord)
    (toAddress : String) (value : Nat) (sender : Option String := none)
    (gas : Nat := 25000) (gas_price : Nat := 4000000000)
    (chain_id : Nat := 1) : Except PWErr (SignParams × String) :=
  let acct? := match sender with
    | none => accounts.head?
    | some s => accounts.find? (fun a => a.address == s)
  match acct? with
  | none => .error .noAccount
  | some acct =>
    if acct.locked then .error .accountLocked
    else
      .ok ({ chainId := chain_id, gas := gas, gasPrice := gas_price
             nonce := get_nonce acct.address history, toAddr := toAddress
             value := value },
           acct.privkey)

/-! ## Helper lemmas -/

theorem foldl_max_init_le (l : List ℕ) (a : ℕ) : a ≤ l.foldl max a := by
  induction l generalizing a with
  | nil => exact le_refl a
  | cons x xs ih =>
    simp only [List.foldl_cons]
    exact le_trans (le_max_left a x) (ih (max a x))

theorem le_foldl_max (l : List ℕ) : ∀ a x : ℕ, x ∈ l → x ≤ l.foldl max a := by
  induction l with
  | nil => intro a x hx; cases hx
  | cons y ys ih =>
    intro a x hx
    simp only [List.foldl_cons]
    rcases List.mem_cons.mp hx with h | h
    · subst h
      exact le_trans (le_max_right a x) (foldl_max_init_le ys (max a x))
    · exact ih (max a y) x h

theorem foldl_max_mem (l : List ℕ) :
    ∀ a : ℕ, l.foldl max a ∈ l ∨ l.foldl max a = a := by
  induction l with
  | nil => intro a; right; rfl
  | cons x xs ih =>
    intro a
    simp only [List.foldl_cons]
    rcases ih (max a x) with h | h
    · left; exact List.mem_cons_of_mem x h
    · rcases le_total a x with hle | hle
      · left; rw [h, max_eq_right hle]; exact List.mem_cons_self x xs
      · right; rw [h, max_eq_left hle]

theorem lookup_append_extra (t : TxRecord) (v : TxVal) (k : String)
    (hk : k ≠ "extra_dict") :
    (t ++ [("extra_dict", v)]).lookup k = t.lookup k := by
  induction t with
  | nil =>
    simp only [List.nil_append, List.lookup]
    have : (k == "extra_dict") = false := beq_eq_false_iff_ne.mpr hk
    simp [this]
  | cons p ps ih =>
    obtain ⟨k', v'⟩ := p
    simp only [List.cons_append, List.lookup]
    cases h : k == k' <;> simp [ih]

theorem lookup_append_self (t : TxRecord) (v : TxVal)
    (h : t.lookup "extra_dict" = none) :
    (t ++ [("extra_dict", v)]).lookup "extra_dict" = some v := by
  induction t with
  | nil => simp [List.lookup]
  | cons p ps ih =>
    obtain ⟨k', v'⟩ := p
    simp only [List.cons_append, List.lookup] at h ⊢
    cases hk : ("extra_dict" == k')
    · simp only [hk] at h ⊢
      exact ih h
    · simp only [hk] at h
      exact Option.noConfusion h

theorem lookupStr_append_extra (t : TxRecord) (v : TxVal) (k : String)
    (hk : k ≠ "extra_dict") :
    lookupStr (t ++ [("extra_dict", v)]) k = lookupStr t k := by
  unfold lookupStr
  rw [lookup_append_extra t v k hk]

theorem get_out_eq_nil_of_no_from (address : String) :
    ∀ result : List TxRecord,
      (∀ t ∈ result, lookupStr t "from" ≠ address) →
      get_out_transaction_history address result = [] := by
  intro result
  induction result with
  | nil => intro _; rfl
  | cons t ts ih =>
    intro h
    unfold get_out_transaction_history get_transaction_history
    simp only [List.map_cons, List.filter_cons]
    have hfalse :
        (lookupStr (t ++ [("extra_dict", mkExtra address t)]) "from" ==
          address) = false := by
      rw [lookupStr_append_extra _ _ _ (by decide)]
      exact beq_eq_false_iff_ne.mpr (h t (List.mem_cons_self t ts))
    rw [hfalse]
    exact ih (fun u hu => h u (List.mem_cons_of_mem t hu))

/-! ## Claim theorems -/

/-- C1: `get_nonce` returns one more than the maximum nonce among the
queried address's outbound transactions, and returns `0` — without failing —
when there is no outbound transaction: an empty history, or a history of
inbound transactions only. -/
theorem get_nonce_spec (address : String) (result : List TxRecord) :
    (get_out_transaction_history address result = [] →
      get_nonce address result = 0) ∧
    (result = [] → get_nonce address result = 0) ∧
    ((∀ t ∈ result, lookupStr t "from" ≠ address) →
      get_nonce address result = 0) ∧
    (get_out_transaction_history address result ≠ [] →
      ∃ t ∈ get_out_transaction_history address result,
        get_nonce address result = txNonce t + 1 ∧
        ∀ u ∈ get_out_transaction_history address result,
          txNonce u ≤ txNonce t) := by
  have hnil : get_out_transaction_history address result = [] →
      get_nonce address result = 0 := by
    intro h
    unfold get_nonce
    split
    · rfl
    · next t ts heq => rw [h] at heq; cases heq
  refine ⟨hnil, ?_, ?_, ?_⟩
  · intro h; subst h; exact hnil rfl
  · intro h; exact hnil (get_out_eq_nil_of_no_from address result h)
  · intro hne
    obtain ⟨t, ts, heq⟩ := List.exists_cons_of_ne_nil hne
    have hval : get_nonce address result =
        ((t :: ts).map txNonce).foldl max 0 + 1 := by
      unfold get_nonce
      split
      · next h0 => rw [heq] at h0; cases h0
      · next u us h0 =>
        rw [heq] at h0
        cases h0
        rfl
    have hle : ∀ u ∈ get_out_transaction_history address result,
        txNonce u ≤ ((t :: ts).map txNonce).foldl max 0 := by
      intro u hu
      rw [heq] at hu
      exact le_foldl_max _ 0 _ (List.mem_map_of_mem txNonce hu)
    rcases foldl_max_mem ((t :: ts).map txNonce) 0 with hmem | h0
    · obtain ⟨u, hu, huM⟩ := List.mem_map.mp hmem
      refine ⟨u, ?_, ?_, ?_⟩
      · rw [heq]; exact hu
      · rw [hval, huM]
      · intro w hw; rw [huM]; exact hle w hw
    · refine ⟨t, ?_, ?_, ?_⟩
      · rw [heq]; exact List.mem_cons_self t ts
      · have ht : txNonce t ≤ ((t :: ts).map txNonce).foldl max 0 := by
          exact le_foldl_max _ 0 _
            (List.mem_map_of_mem txNonce (List.mem_cons_self t ts))
        rw [hval]
        omega
      · intro w hw
        have hw' := hle w hw
        have ht : txNonce t ≤ ((t :: ts).map txNonce).foldl max 0 := by
          exact le_foldl_max _ 0 _
            (List.mem_map_of_mem txNonce (List.mem_cons_self t ts))
        omega

/-- C3: the service-error classifier returns normally on `status == "1"`,
raises the no-transaction error on a non-OK response whose message is
"No transactions found", and otherwise raises the unknown-service error
carrying the original response payload. -/
theorem handle_etherscan_error_spec {ρ : Type} (r : EtherscanResponse ρ) :
    (r.status = "1" → handle_etherscan_error r = .ok ()) ∧
    (r.status ≠ "1" → r.message = "No transactions found" →
      handle_etherscan_error r = .error .noTransactionFound) ∧
    (r.status ≠ "1" → r.message ≠ "No transactions found" →
      handle_etherscan_error r = .error (.unknown r)) := by
  unfold handle_etherscan_error
  refine ⟨?_, ?_, ?_⟩ <;> intros <;> simp_all

/-- C4: the node-error classifier maps a payload whose message contains
"insufficient funds" to the insufficient-funds error and every other payload
— code present or absent — to the unknown-service error, in both cases
carrying the raw payload, and it always produces one of the two. -/
theorem handle_web3_exception_spec (e : Web3Error) :
    (containsStr e.message "insufficient funds" = true →
      handle_web3_exception e = .insufficientFunds e) ∧
    (containsStr e.message "insufficient funds" = false →
      handle_web3_exception e = .unknown e) ∧
    (handle_web3_exception e = .insufficientFunds e ∨
      handle_web3_exception e = .unknown e) := by
  unfold handle_web3_exception
  refine ⟨?_, ?_, ?_⟩
  · intro h; simp [h]
  · intro h; simp [h]
  · cases h : containsStr e.message "insufficient funds" <;> simp [h]

/-- Concrete two-transaction history: one outbound and one inbound
transaction of address `0xa`. -/
def historyC1 : List TxRecord :=
  [[("from", .raw "0xa"), ("to", .raw "0xb"), ("nonce", .raw "4"),
    ("value", .raw "0"), ("timeStamp", .raw "1441800674")],
   [("from", .raw "0xb"), ("to", .raw "0xa"), ("nonce", .raw "7"),
    ("value", .raw "0"), ("timeStamp", .raw "1441801055")]]

/-- C1 witness: the nonce property evaluated on `historyC1`. -/
theorem get_nonce_spec_witness :
    get_out_transaction_history "0xa" historyC1 ≠ [] ∧
    ∃ t ∈ get_out_transaction_history "0xa" historyC1,
      get_nonce "0xa" historyC1 = txNonce t + 1 ∧
      ∀ u ∈ get_out_transaction_history "0xa" historyC1,
        txNonce u ≤ txNonce t :=
  ⟨by decide, (get_nonce_spec "0xa" historyC1).2.2.2 (by decide)⟩

/-- C3 witness: the classifier evaluated on the three service payloads the
repository's tests use. -/
theorem handle_etherscan_error_spec_witness :
    (("0" : String) ≠ "1" ∧
      handle_etherscan_error ⟨"0", "No transactions found", ([] : List String)⟩
        = .error .noTransactionFound) ∧
    handle_etherscan_error ⟨"0", "Unknown error", ([] : List String)⟩ =
      .error (.unknown ⟨"0", "Unknown error", []⟩) ∧
    handle_etherscan_error ⟨"1", "OK", ([] : List String)⟩ = .ok () :=
  ⟨⟨by decide,
    (handle_etherscan_error_spec ⟨"0", "No transactions found", []⟩).2.1
      (by decide) rfl⟩,
   (handle_etherscan_error_spec ⟨"0", "Unknown error", []⟩).2.2
     (by decide) (by decide),
   (handle_etherscan_error_spec ⟨"1", "OK", []⟩).1 rfl⟩

/-- C4 witness: the node-error classifier evaluated on the three payloads
the repository's tests use, the code-less one included. -/
theorem handle_web3_exception_spec_witness :
    (containsStr "insufficient funds for gas * price + value"
        "insufficient funds" = true ∧
      handle_web3_exception
          ⟨some (-32000), "insufficient funds for gas * price + value"⟩ =
        .insufficientFunds
          ⟨some (-32000), "insufficient funds for gas * price + value"⟩) ∧
    handle_web3_exception ⟨some 0, "Unknown error"⟩ =
      .unknown ⟨some 0, "Unknown error"⟩ ∧
    handle_web3_exception ⟨none, "Unknown error"⟩ =
      .unknown ⟨none, "Unknown error"⟩ :=
  ⟨⟨by decide,
    (handle_web3_exception_spec
      ⟨some (-32000), "insufficient funds for gas * price + value"⟩).1
      (by decide)⟩,
   (handle_web3_exception_spec ⟨some 0, "Unknown error"⟩).2.1 (by decide),
   (handle_web3_exception_spec ⟨none, "Unknown error"⟩).2.1 (by decide)⟩

/-- C2: `transact` with the sender omitted signs with the main account — the
first account of the keystore list, the same account an explicit
`sender := main address` resolves to — and, that account being unlocked as
`build_and_send` requires before signing, assembles the transaction with
`chainId = 1`, `gas = 25000`, `gasPrice = 4000000000`, the nonce resolved
from the sender's outbound history, and the given value and destination. -/
theorem transact_no_sender_spec (accounts : List Account)
    (history : List TxRecord) (toAddress : String) (value : Nat)
    (a : Account) (ha : accounts.head? = some a) (hl : a.locked = false) :
    transact accounts history toAddress value none =
      .ok ({ chainId := 1, gas := 25000, gasPrice := 4000000000,
             nonce := get_nonce a.address history, toAddr := toAddress,
             value := value }, a.privkey) ∧
    transact accounts history toAddress value (some a.address) =
      transact accounts history toAddress value none := by
  cases accounts with
  | nil => cases ha
  | cons b rest =>
    have hb : b = a := by simpa using ha
    subst hb
    constructor
    · simp [transact, hl]
    · simp [transact, List.find?]

/-- Fresh unlocked account standing in for the generated key material. -/
def accountC2 : Account :=
  { address := "0xab5801a7d398351b8be11c439e05c5b3259aec9b"
    privkey := "privkey-bytes", path := "keyfile.json"
    locked := false, password := "password" }

/-- C2 witness: a single-account keystore whose sole — unlocked — account
signs a 100-Wei transaction with nonce 0 and the default gas parameters. -/
theorem transact_no_sender_spec_witness :
    [accountC2].head? = some accountC2 ∧
    accountC2.locked = false ∧
    transact [accountC2] [] "0xdest" 100 none =
      .ok ({ chainId := 1, gas := 25000, gasPrice := 4000000000,
             nonce := get_nonce accountC2.address [], toAddr := "0xdest",
             value := 100 }, accountC2.privkey) :=
  ⟨rfl, rfl,
   (transact_no_sender_spec [accountC2] [] "0xdest" 100 accountC2 rfl rfl).1⟩

/-- C5: account creation succeeds for `security_ratio` None, 1 and 100 —
appending the freshly created account — and fails with `InvalidParameter`
for 0 and 101, leaving the account list unchanged. -/
theorem new_account_security_ratio_spec (st : List Account) (fresh : Account)
    (pw : String) :
    (∃ a, new_account st fresh pw none = (st ++ [a], .ok a)) ∧
    (∃ a, new_account st fresh pw (some 1) = (st ++ [a], .ok a)) ∧
    (∃ a, new_account st fresh pw (some 100) = (st ++ [a], .ok a)) ∧
    new_account st fresh pw (some 0) = (st, .error .invalidParameter) ∧
    new_account st fresh pw (some 101) = (st, .error .invalidParameter) := by
  refine ⟨⟨{ fresh with password := pw, locked := false }, rfl⟩,
    ⟨{ fresh with password := pw, locked := false }, ?_⟩,
    ⟨{ fresh with password := pw, locked := false }, ?_⟩, ?_, ?_⟩ <;>
    norm_num [new_account]

/-- C6: updating the password of an unlocked account with no current
password succeeds and the account unlocks with the new password; updating a
locked account with a wrong current password fails with
`AuthenticationError` and returns the account unchanged — still locked under
the old password; every successful update leaves the account unlocked. -/
theorem update_account_password_spec (a : Account) (newPw : String) :
    (a.locked = false →
      (update_account_password a newPw none).2 = none ∧
      (unlock (lock (update_account_password a newPw none).1) newPw).2 =
        none ∧
      (unlock (lock (update_account_password a newPw none).1) newPw).1.locked
        = false) ∧
    (∀ wrong, a.locked = true → wrong ≠ a.password →
      update_account_password a newPw (some wrong) =
        (a, some .authenticationError)) ∧
    (∀ current, (update_account_password a newPw current).2 = none →
      (update_account_password a newPw current).1.locked = false) := by
  refine ⟨?_, ?_, ?_⟩
  · intro h
    simp [update_account_password, h, unlock, lock]
  · intro wrong h hw
    simp [update_account_password, h, hw]
  · intro current
    match current with
    | none =>
      by_cases hl : a.locked = true
      · simp [update_account_password, hl]
      · simp only [Bool.not_eq_true] at hl
        simp [update_account_password, hl]
    | some pw =>
      by_cases hl : a.locked = true
      · by_cases hpw : pw = a.password
        · simp [update_account_password, hl, hpw]
        · simp [update_account_password, hl, hpw]
      · simp only [Bool.not_eq_true] at hl
        simp [update_account_password, hl]

/-- Unlocked account encrypted under the old password. -/
def accountUnlockedC6 : Account :=
  { address := "0xa", privkey := "pk", path := "keyfile.json"
    locked := false, password := "password" }

/-- Locked account encrypted under its current password. -/
def accountLockedC6 : Account :=
  { address := "0xa", privkey := "pk", path := "keyfile.json"
    locked := true, password := "new_password" }

/-- C6 witness: the password-update property evaluated on a concrete
unlocked account, and on a locked account given a wrong current password. -/
theorem update_account_password_spec_witness :
    ((update_account_password accountUnlockedC6 "new_password" none).2 =
        none ∧
      (unlock (lock
          (update_account_password accountUnlockedC6 "new_password" none).1)
        "new_password").2 = none ∧
      (unlock (lock
          (update_account_password accountUnlockedC6 "new_password" none).1)
        "new_password").1.locked = false) ∧
    update_account_password accountLockedC6 "new_password"
        (some "wrong password") =
      (accountLockedC6, some .authenticationError) :=
  ⟨(update_account_password_spec accountUnlockedC6 "new_password").1 rfl,
   (update_account_password_spec accountLockedC6 "new_password").2.1
     "wrong password" rfl (by decide)⟩

/-- C7: after deleting an account, listing the keystore directory — listing
is a pure function of the directory, so re-constructing the manager on the
same directory changes nothing — contains no keyfile with the deleted
account's address, and listing the trash directory yields exactly one
keyfile, carrying the deleted account's address. -/
theorem delete_account_roundtrip (fs : KeystoreFS) (f : KeyFile)
    (hf : f ∈ fs.active)
    (huniq : ∀ g ∈ fs.active, g.address = f.address → g.name = f.name)
    (htrash : fs.trash = []) :
    (∀ g ∈ get_account_list (delete_account fs f).active,
      g.address ≠ f.address) ∧
    get_account_list (delete_account fs f).trash = [f] ∧
    (get_account_list (delete_account fs f).trash).map KeyFile.address =
      [f.address] := by
  refine ⟨?_, ?_, ?_⟩
  · intro g hg
    simp only [get_account_list, delete_account, List.mem_filter,
      decide_eq_true_eq] at hg
    exact fun hcontra => hg.2 (huniq g hg.1 hcontra)
  · simp [get_account_list, delete_account, moveOverwrite, htrash]
  · simp [get_account_list, delete_account, moveOverwrite, htrash]

/-- Keyfile of the account deleted in the C7 witness. -/
def keyfileC7 : KeyFile := { name := "UTC--2025--keyfile", address := "0xa1" }

/-- One-account keystore with an empty trash directory. -/
def fsC7 : KeystoreFS := { active := [keyfileC7], trash := [] }

/-- C7 witness: the delete/list round trip evaluated on a one-account
keystore. -/
theorem delete_account_roundtrip_witness :
    (∀ g ∈ get_account_list (delete_account fsC7 keyfileC7).active,
      g.address ≠ keyfileC7.address) ∧
    get_account_list (delete_account fsC7 keyfileC7).trash = [keyfileC7] ∧
    (get_account_list (delete_account fsC7 keyfileC7).trash).map
      KeyFile.address = [keyfileC7.address] :=
  delete_account_roundtrip fsC7 keyfileC7 (by decide) (by decide) rfl

/-- C8: deleting an account whose keyfile name already exists in the trash
directory still succeeds — the move overwrites the conflicting file instead
of failing — the account disappears from subsequent listings, and exactly
the moved keyfile remains under that name in trash. -/
theorem delete_account_collision (fs : KeystoreFS) (f g : KeyFile)
    (hf : f ∈ fs.active) (hg : g ∈ fs.trash) (hname : g.name = f.name) :
    (∀ k ∈ get_account_list (delete_account fs f).active,
      k.name ≠ f.name) ∧
    (delete_account fs f).trash.filter (fun k => k.name = f.name) = [f] := by
  constructor
  · intro k hk
    simp only [get_account_list, delete_account, List.mem_filter,
      decide_eq_true_eq] at hk
    exact hk.2
  · have h1 : (fs.trash.filter (fun k => k.name ≠ f.name)).filter
        (fun k => k.name = f.name) = [] := by
      rw [List.filter_eq_nil_iff]
      intro k hk
      have hne := (List.mem_filter.mp hk).2
      simp only [decide_eq_true_eq] at hne ⊢
      exact fun heq => hne heq
    simp only [delete_account, moveOverwrite, List.filter_append, h1,
      List.nil_append]
    simp [List.filter]

/-- Keyfile of the account deleted in the C8 witness. -/
def keyfileC8 : KeyFile := { name := "UTC--2025--keyfile", address := "0xa1" }

/-- Stale, conflicting file of the same name already sitting in trash. -/
def staleC8 : KeyFile := { name := "UTC--2025--keyfile", address := "" }

/-- Keystore whose trash directory already holds a file named like the
account about to be deleted. -/
def fsC8 : KeystoreFS := { active := [keyfileC8], trash := [staleC8] }

/-- C8 witness: the collision-safe delete evaluated on a keystore whose
trash already holds a conflicting file. -/
theorem delete_account_collision_witness :
    (∀ k ∈ get_account_list (delete_account fsC8 keyfileC8).active,
      k.name ≠ keyfileC8.name) ∧
    (delete_account fsC8 keyfileC8).trash.filter
      (fun k => k.name = keyfileC8.name) = [keyfileC8] :=
  delete_account_collision fsC8 keyfileC8 staleC8 (by decide) (by decide) rfl

/-! ## History fixture (the repository's `test_get_transaction_history`) -/

/-- Queried address of the history tests. -/
def testAddress : String := "0xab5801a7d398351b8be11c439e05c5b3259aec9b"

/-- First transaction of the history fixture: a full 18-field record,
inbound to the queried address, value 0 Wei. -/
def txA : TxRecord :=
  [("blockHash",
    .raw "0x0e37d0025471662915d7a15ade9a13e75cbbcc239bdbc4ea46a01d9b268a7e60"),
   ("blockNumber", .raw "207947"),
   ("confirmations", .raw "8142357"),
   ("contractAddress", .raw ""),
   ("cumulativeGasUsed", .raw "21408"),
   ("from", .raw "0x5ed8cee6b63b1c6afce3ad7c92f4fd7e1b8fad9f"),
   ("gas", .raw "90000"),
   ("gasPrice", .raw "50000000000"),
   ("gasUsed", .raw "21408"),
   ("hash",
    .raw "0xf7dbf98bcebd7b803917e00e7e3292843a4b7bf66016638811cea4705a32d73e"),
   ("input", .raw "0x123123123123"),
   ("isError", .raw "0"),
   ("nonce", .raw "23"),
   ("timeStamp", .raw "1441800674"),
   ("to", .raw "0xab5801a7d398351b8be11c439e05c5b3259aec9b"),
   ("transactionIndex", .raw "0"),
   ("txreceipt_status", .raw ""),
   ("value", .raw "0")]

/-- Second transaction of the fixture: inbound, 200000000000000000 Wei. -/
def txB : TxRecord :=
  [("blockHash",
    .raw "0x84fcddbf660faa265e55e877490cbb81cbb69e8fe14dbc8f15aaef586e9cd762"),
   ("from", .raw "0x5ed8cee6b63b1c6afce3ad7c92f4fd7e1b8fad9f"),
   ("timeStamp", .raw "1441801055"),
   ("to", .raw "0xab5801a7d398351b8be11c439e05c5b3259aec9b"),
   ("value", .raw "200000000000000000")]

/-- Third transaction of the fixture: outbound, 100 Wei. -/
def txC : TxRecord :=
  [("blockHash",
    .raw "0xc8bc4bccc0359db2e984221cffde8190fb126ca911c95f041df7e7358a22e361"),
   ("from", .raw "0xab5801a7d398351b8be11c439e05c5b3259aec9b"),
   ("timeStamp", .raw "1441801303"),
   ("to", .raw "0x3535353535353535353535353535353535353535"),
   ("value", .raw "100")]

/-- The fixture's three-transaction history, ascending by timestamp. -/
def testHistory : List TxRecord := [txA, txB, txC]

/-- C9: the history query augments every record with the derived extra
fields computed relative to the queried address — `value_eth` the Wei value
in Ether, `sent` meaning `from` equals the queried address, `received`
meaning `to` equals it — preserving the source order; on the fixture, the
second transaction derives `sent = false`, `received = true`,
`value_eth = 0.2`, the third `sent = true`, `received = false`, and the
timestamps stay in ascending source order. -/
theorem get_transaction_history_spec :
    (∀ (address : String) (txs : List TxRecord),
      (get_transaction_history address txs).map
          (fun t => t.lookup "timeStamp") =
        txs.map (fun t => t.lookup "timeStamp")) ∧
    (∀ (address : String) (txs : List TxRecord),
      ∀ t' ∈ get_transaction_history address txs,
        ∃ t ∈ txs, t' = t ++ [("extra_dict",
          .extraD ((parseNatStr (lookupStr t "value") : ℚ) / 10 ^ 18)
            (lookupStr t "from" == address)
            (lookupStr t "to" == address))]) ∧
    (get_transaction_history testAddress testHistory).map
        (fun t => t.lookup "extra_dict") =
      [some (.extraD 0 false true),
       some (.extraD (2 / 10) false true),
       some (.extraD (100 / 10 ^ 18) true false)] ∧
    (get_transaction_history testAddress testHistory).map
        (fun t => lookupStr t "timeStamp") =
      ["1441800674", "1441801055", "1441801303"] ∧
    parseNatStr "1441800674" < parseNatStr "1441801055" ∧
    parseNatStr "1441801055" < parseNatStr "1441801303" := by
  refine ⟨?_, ?_, ?_, by decide, by decide, by decide⟩
  · intro address txs
    unfold get_transaction_history
    rw [List.map_map]
    apply List.map_congr_left
    intro t _
    exact lookup_append_extra t _ "timeStamp" (by decide)
  · intro address txs t' ht'
    unfold get_transaction_history at ht'
    obtain ⟨t, ht, rfl⟩ := List.mem_map.mp ht'
    exact ⟨t, ht, rfl⟩
  · have hA : txA.lookup "extra_dict" = none := by decide
    have hB : txB.lookup "extra_dict" = none := by decide
    have hC : txC.lookup "extra_dict" = none := by decide
    have e1 : mkExtra testAddress txA = .extraD 0 false true := by
      unfold mkExtra
      have hv : parseNatStr (lookupStr txA "value") = 0 := by decide
      have hf : (lookupStr txA "from" == testAddress) = false := by decide
      have ht : (lookupStr txA "to" == testAddress) = true := by decide
      rw [hv, hf, ht]
      norm_num [TxVal.extraD.injEq]
    have e2 : mkExtra testAddress txB = .extraD (2 / 10) false true := by
      unfold mkExtra
      have hv : parseNatStr (lookupStr txB "value") = 200000000000000000 := by
        decide
      have hf : (lookupStr txB "from" == testAddress) = false := by decide
      have ht : (lookupStr txB "to" == testAddress) = true := by decide
      rw [hv, hf, ht]
      norm_num [TxVal.extraD.injEq]
    have e3 : mkExtra testAddress txC = .extraD (100 / 10 ^ 18) true false := by
      unfold mkExtra
      have hv : parseNatStr (lookupStr txC "value") = 100 := by decide
      have hf : (lookupStr txC "from" == testAddress) = true := by decide
      have ht : (lookupStr txC "to" == testAddress) = false := by decide
      rw [hv, hf, ht]
      norm_num [TxVal.extraD.injEq]
    unfold get_transaction_history testHistory
    simp only [List.map_cons, List.map_nil]
    rw [lookup_append_self txA _ hA, lookup_append_self txB _ hB,
      lookup_append_self txC _ hC, e1, e2, e3]

/-- C9 witness: the augmentation shape evaluated at the fixture's second
transaction. -/
theorem get_transaction_history_spec_witness :
    (txB ++ [("extra_dict", mkExtra testAddress txB)]) ∈
      get_transaction_history testAddress testHistory ∧
    ∃ t ∈ testHistory,
      txB ++ [("extra_dict", mkExtra testAddress txB)] =
        t ++ [("extra_dict",
          .extraD ((parseNatStr (lookupStr t "value") : ℚ) / 10 ^ 18)
            (lookupStr t "from" == testAddress)
            (lookupStr t "to" == testAddress))] :=
  ⟨List.mem_map_of_mem _ (by decide),
   get_transaction_history_spec.2.1 testAddress testHistory
     (txB ++ [("extra_dict", mkExtra testAddress txB)])
     (List.mem_map_of_mem _ (by decide))⟩

/-- Keys of a record, in source order. -/
def keysOf (t : TxRecord) : List String := t.map Prod.fst

/-- The 18 raw transaction fields the chain-data service delivers (§6). -/
def rawFields : List String :=
  ["nonce", "contractAddress", "cumulativeGasUsed", "hash", "blockHash",
   "timeStamp", "gas", "value", "blockNumber", "to", "confirmations",
   "input", "from", "transactionIndex", "isError", "gasPrice", "gasUsed",
   "txreceipt_status"]

/-- C10: every returned record keeps the raw source fields unchanged as the
strings received — on the fixture the `value` field stays the string-encoded
Wei amount — and `extra_dict` is the only added key, so a record carrying
the service's 18 raw fields comes back with exactly those 18 keys plus
`extra_dict` (19 keys in all). -/
theorem get_transaction_history_frame :
    (∀ (address : String) (txs : List TxRecord),
      (get_transaction_history address txs).map keysOf =
        txs.map (fun t => keysOf t ++ ["extra_dict"])) ∧
    (∀ (address : String) (txs : List TxRecord),
      ∀ t' ∈ get_transaction_history address txs,
        ∃ t ∈ txs, keysOf t' = keysOf t ++ ["extra_dict"] ∧
          ∀ k, k ≠ "extra_dict" → t'.lookup k = t.lookup k) ∧
    (∀ (address : String) (txs : List TxRecord),
      (∀ t ∈ txs, (keysOf t).toFinset = rawFields.toFinset) →
      ∀ t' ∈ get_transaction_history address txs,
        (keysOf t').toFinset = insert "extra_dict" rawFields.toFinset) ∧
    (get_transaction_history testAddress testHistory).map
        (fun t => t.lookup "value") =
      [some (.raw "0"), some (.raw "200000000000000000"),
       some (.raw "100")] ∧
    (keysOf
        ((get_transaction_history testAddress testHistory).headI)).toFinset =
      insert "extra_dict" rawFields.toFinset ∧
    (insert "extra_dict" rawFields.toFinset).card = 19 := by
  have hkeys : ∀ (address : String) (txs : List TxRecord),
      ∀ t' ∈ get_transaction_history address txs,
        ∃ t ∈ txs, keysOf t' = keysOf t ++ ["extra_dict"] ∧
          ∀ k, k ≠ "extra_dict" → t'.lookup k = t.lookup k := by
    intro address txs t' ht'
    unfold get_transaction_history at ht'
    obtain ⟨t, ht, rfl⟩ := List.mem_map.mp ht'
    refine ⟨t, ht, ?_, ?_⟩
    · simp [keysOf]
    · intro k hk
      exact lookup_append_extra t _ k hk
  refine ⟨?_, hkeys, ?_, by decide, by decide, by decide⟩
  · intro address txs
    unfold get_transaction_history
    rw [List.map_map]
    apply List.map_congr_left
    intro t _
    simp [keysOf]
  · intro address txs hall t' ht'
    obtain ⟨t, ht, hk, _⟩ := hkeys address txs t' ht'
    rw [hk, List.toFinset_append, hall t ht]
    simp [Finset.union_comm, Finset.insert_eq]

/-- C10 witness: the key-set property evaluated on a one-record history
carrying the full 18-field record. -/
theorem get_transaction_history_frame_witness :
    (∀ t ∈ [txA], (keysOf t).toFinset = rawFields.toFinset) ∧
    ∀ t' ∈ get_transaction_history testAddress [txA],
      (keysOf t').toFinset = insert "extra_dict" rawFields.toFinset :=
  ⟨by decide,
   get_transaction_history_frame.2.2.1 testAddress [txA] (by decide)⟩

end PyWalib

